import Mathlib

/-!
Verification of the authentication / authorization core of the repository.

The TypeScript source is embedded shallowly:
* the backing store (supabase tables) is modelled as lists of row records,
  with boolean flags injecting store errors where the code distinguishes them;
* Node Buffer / crypto primitives are modelled by their documented
  input-output behavior over byte lists (Nat below 256); the keyed hash
  functions (HMAC-SHA256, SHA-256) are abstract function parameters, since
  the control flow under verification never depends on their internals;
* JavaScript truthiness of strings and numbers is translated explicitly
  (empty string falsy, zero falsy, null/undefined falsy).
-/

/-! ## JavaScript string primitives -/

/-- Model of JS String.prototype.toLowerCase for the ASCII alphabet
(character-wise lowering, as used on email keys). -/
def jsToLowerCase (s : String) : String :=
  String.mk (s.data.map Char.toLower)

/-- Whitespace test used by JS String.prototype.trim. -/
def jsIsSpace (c : Char) : Bool :=
  c = ' ' || c = '\t' || c = '\n' || c = '\r'

/-- Model of JS String.prototype.trim: strip whitespace from both ends. -/
def jsTrim (s : String) : String :=
  String.mk (((s.data.dropWhile jsIsSpace).reverse.dropWhile jsIsSpace).reverse)

/-- Split a character list on the dot character; models
JS String.prototype.split(".") on the underlying characters.
An empty input yields one empty field, as in JS. -/
def splitDotChars : List Char → List (List Char)
  | [] => [[]]
  | c :: rest =>
    let r := splitDotChars rest
    if c = '.' then [] :: r
    else
      match r with
      | h :: t => (c :: h) :: t
      | [] => [[c]]

/-- Model of JS "plaintextKey.split(".")". -/
def jsSplitDot (s : String) : List String :=
  (splitDotChars s.data).map String.mk

/-! ## Node crypto / Buffer primitives -/

/-- Functional behavior of Node crypto.timingSafeEqual on two byte buffers of
equal length: byte-wise equality. The constant-time execution property of the
primitive is a timing property with no functional content; all call sites in
the source check length equality before calling it, as Node throws otherwise. -/
def timingSafeEqual (a b : List Nat) : Bool :=
  a == b

/-- Value of one hexadecimal digit, as Node Buffer.from(s, "hex") reads it. -/
def hexVal (c : Char) : Option Nat :=
  if '0' ≤ c ∧ c ≤ '9' then some (c.toNat - 48)
  else if 'a' ≤ c ∧ c ≤ 'f' then some (c.toNat - 87)
  else if 'A' ≤ c ∧ c ≤ 'F' then some (c.toNat - 55)
  else none

/-- Pairwise hex decoding, stopping at the first invalid pair or odd tail,
as Node Buffer.from(s, "hex") does. -/
def hexDecodeChars : List Char → List Nat
  | c1 :: c2 :: rest =>
    match hexVal c1, hexVal c2 with
    | some h, some l => (16 * h + l) :: hexDecodeChars rest
    | _, _ => []
  | _ => []

/-- Model of Node Buffer.from(s, "hex") as a byte list. -/
def hexDecode (s : String) : List Nat :=
  hexDecodeChars s.data

/-- Character of one 6-bit value in the standard base64 alphabet. -/
def base64Char (v : Nat) : Char :=
  if v < 26 then Char.ofNat (65 + v)
  else if v < 52 then Char.ofNat (97 + (v - 26))
  else if v < 62 then Char.ofNat (48 + (v - 52))
  else if v = 62 then '+'
  else '/'

/-- 6-bit value of a base64 alphabet character; none for every other
character (including the padding sign), which Node Buffer.from(s, "base64")
skips. -/
def base64Val (c : Char) : Option Nat :=
  if 'A' ≤ c ∧ c ≤ 'Z' then some (c.toNat - 65)
  else if 'a' ≤ c ∧ c ≤ 'z' then some (c.toNat - 71)
  else if '0' ≤ c ∧ c ≤ '9' then some (c.toNat + 4)
  else if c = '+' then some 62
  else if c = '/' then some 63
  else none

/-- Byte triples to 6-bit quadruples. Bit operators of the JS encoder are
translated to arithmetic on Nat: x >>> k is x / 2^k, x & (2^k - 1) is
x % 2^k, x << k is x * 2^k, and the bitwise or of disjoint bit ranges
is addition. -/
def base64Vals : List Nat → List Nat
  | b0 :: b1 :: b2 :: rest =>
    b0 / 4 :: (b0 % 4 * 16 + b1 / 16) :: (b1 % 16 * 4 + b2 / 64) :: b2 % 64 ::
      base64Vals rest
  | [b0, b1] => [b0 / 4, b0 % 4 * 16 + b1 / 16, b1 % 16 * 4]
  | [b0] => [b0 / 4, b0 % 4 * 16]
  | [] => []

/-- Padding characters appended by the base64 encoder. -/
def base64Pad (len : Nat) : List Char :=
  if len % 3 = 1 then ['=', '=']
  else if len % 3 = 2 then ['=']
  else []

/-- Model of Buffer.prototype.toString("base64") on a byte list. -/
def base64Encode (bs : List Nat) : String :=
  String.mk ((base64Vals bs).map base64Char ++ base64Pad bs.length)

/-- 6-bit quadruples back to byte triples; incomplete trailing groups
contribute the bytes their bits complete, and a lone trailing 6-bit value
contributes nothing, as in Node. -/
def base64Bytes : List Nat → List Nat
  | v0 :: v1 :: v2 :: v3 :: rest =>
    (v0 * 4 + v1 / 16) :: (v1 % 16 * 16 + v2 / 4) :: (v2 % 4 * 64 + v3) ::
      base64Bytes rest
  | [v0, v1, v2] => [v0 * 4 + v1 / 16, v1 % 16 * 16 + v2 / 4]
  | [v0, v1] => [v0 * 4 + v1 / 16]
  | _ => []

/-- Model of Node Buffer.from(s, "base64"): skip every character outside the
base64 alphabet (the padding sign included), then assemble bytes from the
6-bit values, dropping incomplete trailing bits. -/
def base64Decode (s : String) : List Nat :=
  base64Bytes (s.data.filterMap base64Val)

/-! ## JS Map / object property access -/

/-- Lookup of a string key on an association list, modelling both
Map.prototype.get and property access on a JS object literal. -/
def jsGet {α : Type} : List (String × α) → String → Option α
  | [], _ => none
  | (k1, v1) :: rest, k => if k1 = k then some v1 else jsGet rest k

/-- Model of Map.prototype.set on an association list (insertion order
preserved, existing key replaced in place). -/
def mapSet : List (String × Nat) → String → Nat → List (String × Nat)
  | [], k, v => [(k, v)]
  | (k1, v1) :: rest, k, v =>
    if k1 = k then (k, v) :: rest else (k1, v1) :: mapSet rest k v

/-! ## src/utils/apiKeys.ts — HMAC-keyed API key store (token_hash scheme) -/

/-- Row of the api_keys table as read and written by src/utils/apiKeys.ts
(columns id, user_id, name, token_hash, revoked; the last_used_at touch is a
best-effort side write on no column the verifier reads, so it is left out of
the modelled state). -/
structure ApiKeyRow where
  id : String
  user_id : String
  name : String
  token_hash : String
  revoked : Bool
deriving DecidableEq, Repr

/-- Result of createApiKeyForUser: the inserted row id and the plaintext key
handed to the caller exactly once. -/
structure CreatedKey where
  id : String
  name : String
  key : String
deriving DecidableEq, Repr

/-- Model of createApiKeyForUser. The random token (crypto.randomBytes hex)
and the database-assigned row id are inputs; hmacHex models
crypto.createHmac("sha256", API_KEY_SECRET).update(token).digest("hex").
Returns the grown table and the one-time result; the insert error branch
throws in the source and is not taken in the modelled runs. -/
def createApiKeyForUser (hmacHex : String → String → String) (secret : String)
    (store : List ApiKeyRow) (userId nam token newId : String) :
    List ApiKeyRow × CreatedKey :=
  let tokenHash := hmacHex secret token
  let row : ApiKeyRow :=
    { id := newId, user_id := userId, name := nam, token_hash := tokenHash,
      revoked := false }
  (store ++ [row], { id := newId, name := nam, key := newId ++ "." ++ token })

/-- Model of revokeApiKey: flip revoked on every row matching both the key id
and the owner id (supabase update ... match \x7b id, user_id \x7d). -/
def revokeApiKey (store : List ApiKeyRow) (userId apiKeyId : String) :
    List ApiKeyRow :=
  store.map fun r =>
    if r.id = apiKeyId ∧ r.user_id = userId then { r with revoked := true }
    else r

/-- Model of verifyApiKey. Splits the presented key on the dot, requires
exactly two nonempty parts (JS: the parts.length !== 2 guard, encoded by the
two-element match arm, then the falsy test on each part), fetches the row by id (limit 1 then single, so the first match, and
zero rows is an error giving null), rejects revoked rows, then compares the
stored hash with the recomputed keyed hash: hex-decode both, require equal
lengths, then the constant-time byte comparison. Returns the owner user_id
on success, null (none) otherwise. -/
def verifyApiKey (hmacHex : String → String → String) (secret : String)
    (store : List ApiKeyRow) (plaintextKey : String) : Option String :=
  match jsSplitDot plaintextKey with
  | [id, token] =>
      if id = "" ∨ token = "" then none
      else
        match (store.filter fun r => r.id = id).head? with
        | none => none
        | some row =>
          if row.revoked then none
          else
            let storedHash := row.token_hash
            let computedHash := hmacHex secret token
            let a := hexDecode storedHash
            let b := hexDecode computedHash
            if a.length ≠ b.length then none
            else if ¬ timingSafeEqual a b then none
            else some row.user_id
  | _ => none

/-! ## src/routes/apiKeys.ts — POST /api-keys handler (hashed_key scheme) -/

/-- Row of the api_keys table as used by the route handler and by the
hashed-key flow of the authorizer (columns id, user_id, name, hashed_key,
revoked). -/
structure HashedKeyRow where
  id : String
  user_id : String
  name : String
  hashed_key : String
  revoked : Bool
deriving DecidableEq, Repr

/-- Outcome of the POST /api-keys handler. -/
inductive IssueResult
  | resp (status : Nat) (error : String)
  | created (store : List HashedKeyRow) (id : String) (nam : String)
      (rawKey : String)
deriving DecidableEq, Repr

/-- Model of the POST /api-keys handler body. Inputs: the sha256 hex digest
function, the current table, the authenticated user id and auth method
attached by the authorizer, the validated name, and the random raw key and
database-assigned id of the would-be insert. Store error branches are
injected through the two failure flags. -/
def postApiKeysHandler (sha256Hex : String → String)
    (store : List HashedKeyRow) (selectFail insertFail : Bool)
    (user : Option String) (authMethod : Option String)
    (nam rawKey newId : String) : IssueResult :=
  match user with
  | none => .resp 401 "Unauthorized"
  | some uid =>
    if authMethod ≠ some "jwt" then
      .resp 403 "Must be authenticated via user session to manage API keys"
    else if selectFail then .resp 500 "Internal server error"
    else
      let existing :=
        (store.filter fun r => r.user_id = uid ∧ r.name = nam).take 1
      if existing.length > 0 then .resp 409 "API key name already exists"
      else if insertFail then .resp 500 "Internal server error"
      else
        let row : HashedKeyRow :=
          { id := newId, user_id := uid, name := nam,
            hashed_key := sha256Hex rawKey, revoked := false }
        .created (store ++ [row]) newId nam rawKey

/-! ## src/utils/jwt.ts — token codec (jsonwebtoken over a shared secret) -/

/-- Claim set of a bearer token as the middleware reads it: the userId claim
set by signJwt, the issued-at time in seconds added by the library, and the
expiry in seconds. Absent claims are none. -/
structure JwtPayload where
  userId : Option String
  iat : Option Nat
  exp : Option Nat
deriving DecidableEq, Repr

/-- A decoded token: declared algorithm, claim set, and signature bytes.
A token of the "none" algorithm carries no signature. -/
structure JwtToken where
  alg : String
  payload : JwtPayload
  signature : Option (List Nat)
deriving DecidableEq, Repr

/-- Algorithms the jsonwebtoken verify call accepts when it is given a shared
secret and, as in src/utils/jwt.ts, no algorithms option: every HMAC
algorithm of the library. -/
def jwtDefaultHsAlgos : List String := ["HS256", "HS384", "HS512"]

/-- Model of jwt.verify(token, JWT_SECRET) as called by verifyJwt in
src/utils/jwt.ts, which passes no algorithms option. Per the documented
default of the jsonwebtoken library for a shared-secret key: a token without
a signature is rejected, a declared algorithm outside the HMAC family is
rejected, the signature must equal the keyed MAC of the claim set under the
declared algorithm, and an expired token is rejected. The MAC family is the
abstract parameter mac (algorithm, secret, claim set to tag bytes). -/
def verifyJwt (mac : String → String → JwtPayload → List Nat)
    (secret : String) (now : Nat) (t : JwtToken) : Except String JwtPayload :=
  match t.signature with
  | none => .error "jwt signature is required"
  | some sig =>
    if ¬ jwtDefaultHsAlgos.contains t.alg then .error "invalid algorithm"
    else if sig ≠ mac t.alg secret t.payload then .error "invalid signature"
    else
      match t.payload.exp with
      | some e => if e ≤ now then .error "jwt expired" else .ok t.payload
      | none => .ok t.payload

/-- Model of signJwt in src/utils/jwt.ts: sign with the HS256 algorithm under
the shared secret. -/
def signJwt (mac : String → String → JwtPayload → List Nat)
    (secret : String) (payload : JwtPayload) : JwtToken :=
  { alg := "HS256", payload := payload,
    signature := some (mac "HS256" secret payload) }

/-! ## src/middleware/permissions.ts and the attached identity -/

/-- The user object the authorizer attaches to the request. The role field is
the loaded role row as a JS object (its selected permission columns as an
association list), null when no role row was loaded. -/
structure AttachedUser where
  id : String
  name : String
  email : String
  created_at : String
  role : Option (List (String × Bool))
  roleName : Option String
  apiKeyName : Option String := none
  apiKeyId : Option String := none
deriving DecidableEq, Repr

/-- Outcome of a middleware: an error response or a pass to the next
handler. -/
inductive GateResult
  | resp (status : Nat) (error : String)
  | allow
deriving DecidableEq, Repr

/-- Model of requirePermission(permission) applied to the request user.
A missing user is 401; a null role is 403; a falsy role[permission]
(absent key or false value) is 403; otherwise pass. Pure function of the
identity and the permission name. -/
def requirePermission (permission : String) (user : Option AttachedUser) :
    GateResult :=
  match user with
  | none => .resp 401 "Unauthorized"
  | some u =>
    match u.role with
    | none => .resp 403 "Forbidden: no role assigned"
    | some role =>
      if (jsGet role permission).getD false then .allow
      else .resp 403 "Forbidden: insufficient permissions"

/-! ## src/middleware/authorizer.ts -/

/-- Row of the users table (columns the middleware selects). The
password_changed_at column is modelled as the epoch-millisecond value of the
stored timestamp, none for null. The role column is the role name string,
none for null. -/
structure UserRow where
  id : String
  name : String
  email : String
  created_at : String
  password_changed_at : Option Nat
  role : Option String
deriving DecidableEq, Repr

/-- Row of the roles table with its six permission columns. -/
structure RoleRow where
  name : String
  can_post_login : Bool
  can_get_my_user : Bool
  can_get_users : Bool
  can_post_products : Bool
  can_post_product_images : Bool
  can_get_my_bestsellers : Bool
deriving DecidableEq, Repr

/-- The role row as the JS object attached by authorizer.ts, which selects
all six permission columns. -/
def RoleRow.attachedPerms (r : RoleRow) : List (String × Bool) :=
  [("can_post_login", r.can_post_login),
   ("can_get_my_user", r.can_get_my_user),
   ("can_get_users", r.can_get_users),
   ("can_post_products", r.can_post_products),
   ("can_post_product_images", r.can_post_product_images),
   ("can_get_my_bestsellers", r.can_get_my_bestsellers)]

/-- The role row as attached by authorizerWithApiKey.ts, which selects only
four permission columns. -/
def RoleRow.attachedPermsFour (r : RoleRow) : List (String × Bool) :=
  [("can_post_login", r.can_post_login),
   ("can_get_my_user", r.can_get_my_user),
   ("can_get_users", r.can_get_users),
   ("can_post_products", r.can_post_products)]

/-- The backing store visible to the middleware: the users, roles and
api_keys tables, with one flag per table injecting a supabase error
response. -/
structure Db where
  users : List UserRow
  roles : List RoleRow
  hashedKeys : List HashedKeyRow
  usersFail : Bool := false
  rolesFail : Bool := false
  keysFail : Bool := false
deriving DecidableEq, Repr

/-- supabase.from("users").select(...).eq("id", uid).single(): an error flag
or anything other than exactly one matching row is an error (none). -/
def fetchUserById (db : Db) (uid : String) : Option UserRow :=
  if db.usersFail then none
  else
    match db.users.filter fun u => u.id = uid with
    | [u] => some u
    | _ => none

/-- supabase.from("roles").select(...).eq("name", rname).single(): an error
flag or anything other than exactly one matching row is an error; the
middleware logs that error and keeps a null role object. -/
def loadRoleObj (db : Db) (rname : String) : Option RoleRow :=
  if db.rolesFail then none
  else
    match db.roles.filter fun r => r.name = rname with
    | [r] => some r
    | _ => none

/-- supabase.from("api_keys").select(...).eq("hashed_key", h).limit(1)
.single(): first matching row; an error flag or zero rows is an error. -/
def fetchKeyByHash (db : Db) (hashed : String) : Option HashedKeyRow :=
  if db.keysFail then none
  else (db.hashedKeys.filter fun r => r.hashed_key = hashed).head?

/-- normalizeRoleName of authorizer.ts: null for a falsy name, otherwise the
trimmed string. -/
def normalizeRoleName (nam : Option String) : Option String :=
  match nam with
  | none => none
  | some s => if s = "" then none else some (jsTrim s)

/-- JS truthiness of a nullable string. -/
def truthyStr : Option String → Bool
  | none => false
  | some s => s ≠ ""

/-- The role-loading block shared by both branches of authorizer.ts: load the
role row by the user row role name when that name is truthy (a load error is
logged and leaves the object null), then fall back to the normalized user row
role name when the normalized loaded name is falsy. Returns the role object
and the normalized role name. -/
def rolePartFor (db : Db) (urole : Option String) :
    Option RoleRow × Option String :=
  let roleObj : Option RoleRow :=
    match urole with
    | some rname => if rname ≠ "" then loadRoleObj db rname else none
    | none => none
  let rn1 : Option String :=
    match roleObj with
    | some r => normalizeRoleName (some r.name)
    | none => none
  let rn1Falsy : Bool :=
    match rn1 with
    | none => true
    | some s => s = ""
  let rn2 : Option String :=
    if rn1Falsy ∧ truthyStr urole then normalizeRoleName urole else rn1
  (roleObj, rn2)

/-- Outcome of an authorizer middleware: an error response, or the attached
auth method and user handed to next(). -/
inductive AuthResult
  | resp (status : Nat) (error : String)
  | success (authMethod : String) (user : AttachedUser)
deriving DecidableEq, Repr

/-- The bearer branch of authorizer.ts after a successful token
verification. A falsy userId claim is rejected before any store access; the
user row is fetched by id; a token whose truthy (nonzero) iat is before the
user password_changed_at second is rejected; then the role block runs and
the identity is attached. -/
def authorizerJwt (db : Db) (payload : JwtPayload) : AuthResult :=
  let uidOk : Option String :=
    match payload.userId with
    | none => none
    | some u => if u = "" then none else some u
  match uidOk with
  | none => .resp 401 "Invalid token payload"
  | some uid =>
    match fetchUserById db uid with
    | none => .resp 401 "Invalid token user"
    | some u =>
      let revokedByPwdChange : Bool :=
        match u.password_changed_at, payload.iat with
        | some ms, some i => i ≠ 0 ∧ i < ms / 1000
        | _, _ => false
      if revokedByPwdChange then .resp 401 "Invalid or expired token"
      else
        let rp := rolePartFor db u.role
        .success "jwt"
          { id := u.id, name := u.name, email := u.email,
            created_at := u.created_at,
            role := rp.1.map RoleRow.attachedPerms, roleName := rp.2 }

/-- The api-key branch of authorizer.ts: trim the header, reject an empty
key, hash it with plain SHA-256 and look the row up by hashed_key (invalid
when absent, 403 when revoked), fetch the user row, run the role block (no
password-change check on this path), and attach the identity. The
last_used_at touch is a fire-and-forget write on no column this middleware
reads. -/
def authorizerApiKey (db : Db) (sha256Hex : String → String)
    (apiKeyHeader : String) : AuthResult :=
  let rawKey := jsTrim apiKeyHeader
  if rawKey = "" then .resp 401 "Invalid API key"
  else
    let hashed := sha256Hex rawKey
    match fetchKeyByHash db hashed with
    | none => .resp 401 "Invalid API key"
    | some keyRow =>
      if keyRow.revoked then .resp 403 "API key revoked"
      else
        match fetchUserById db keyRow.user_id with
        | none => .resp 401 "Invalid API key user"
        | some u =>
          let rp := rolePartFor db u.role
          .success "api_key"
            { id := u.id, name := u.name, email := u.email,
              created_at := u.created_at,
              role := rp.1.map RoleRow.attachedPerms, roleName := rp.2,
              apiKeyName := some keyRow.name, apiKeyId := some keyRow.id }

/-- The dispatch of authorizer.ts over the two headers: a truthy
Authorization header of the Bearer scheme wins, else a truthy x-api-key
header, else 401. The token verification outcome is the verified parameter
(a catch around verifyJwt gives the error branch). -/
def authorizer (db : Db) (sha256Hex : String → String)
    (verified : Except String JwtPayload)
    (authHeader apiKeyHeader : Option String) : AuthResult :=
  let bearer : Bool :=
    match authHeader with
    | some ah => ah.startsWith "Bearer "
    | none => false
  if bearer then
    match verified with
    | .error _ => .resp 401 "Invalid or expired token"
    | .ok payload => authorizerJwt db payload
  else
    match apiKeyHeader with
    | some k =>
      if k = "" then .resp 401 "Missing Authorization or x-api-key header"
      else authorizerApiKey db sha256Hex k
    | none => .resp 401 "Missing Authorization or x-api-key header"

/-- Rewrite of the users table that changes only the password_changed_at
column, used to state that the api-key branch never reads that column. -/
def setPwdChangedAt (db : Db) (f : UserRow → Option Nat) : Db :=
  { db with users := db.users.map fun u => { u with password_changed_at := f u } }

/-! ## src/middleware/authorizerWithApiKey.ts — bearer branch -/

/-- The bearer branch of authorizerWithApiKey.ts after a successful token
verification: a falsy userId is rejected before any store access (no
password-change check exists in this middleware at all), the user row is
fetched, the role is loaded by name with only four permission columns, and
the identity is attached with the raw (unnormalized) role name. -/
def authorizerWithApiKeyJwt (db : Db) (payload : JwtPayload) : AuthResult :=
  let userId : Option String := payload.userId
  let uidOk : Option String :=
    match userId with
    | none => none
    | some u => if u = "" then none else some u
  match uidOk with
  | none => .resp 401 "Invalid authentication"
  | some uid =>
    match fetchUserById db uid with
    | none => .resp 401 "Invalid token user"
    | some u =>
      let roleObj : Option RoleRow :=
        match u.role with
        | some rname => if rname ≠ "" then loadRoleObj db rname else none
        | none => none
      .success "jwt"
        { id := u.id, name := u.name, email := u.email,
          created_at := u.created_at,
          role := roleObj.map RoleRow.attachedPermsFour, roleName := u.role }

/-! ## src/routes/webhooks.ts — Shopify webhook signature verification -/

/-- Outcome of the webhook handler up to signature verification: an error
response, or a verified signature after which the handler parses the raw
body as JSON. -/
inductive WebhookResult
  | resp (status : Nat) (body : String)
  | sigOk
deriving DecidableEq, Repr

/-- Model of shopifySalesWebhookHandler up to signature verification.
hmacSha256 models crypto.createHmac("sha256", secret).update(rawBody)
.digest() as raw bytes. A missing secret is 500; a missing raw Buffer body
is 400; a missing or empty signature header (JS falsy) is 401 Missing
signature. The expected signature is the base64 encoding of the MAC of the
exact raw body bytes; both the expected string and the header are base64
decoded, and unequal lengths or unequal bytes are the 401 Invalid signature
response. JSON parsing happens only after sigOk. -/
def shopifyWebhookVerify (hmacSha256 : String → List Nat → List Nat)
    (secret : Option String) (rawBody : Option (List Nat))
    (hmacHeader : Option String) : WebhookResult :=
  match secret with
  | none => .resp 500 "Webhook secret not configured"
  | some sec =>
    match rawBody with
    | none => .resp 400 "Invalid body"
    | some body =>
      let header : String := (hmacHeader.getD "")
      if header = "" then .resp 401 "Missing signature"
      else
        let hmac := hmacSha256 sec body
        let expected := base64Encode hmac
        let a := base64Decode expected
        let b := base64Decode header
        if a.length ≠ b.length ∨ ¬ timingSafeEqual a b then
          .resp 401 "Invalid signature"
        else .sigOk

/-! ## src/shopify.ts — login rate limiter -/

/-- The fixed login window in milliseconds. -/
def LOGIN_LIMIT_MS : Nat := 5000

/-- Outcome of the rate-limit block at the top of the POST /auth/login
handler: a 429 with the Retry-After value, or admission together with the
updated last-attempt map. -/
inductive LoginGate
  | limited (retryAfter : Int)
  | allowed (lastLoginAttempt : List (String × Nat))
deriving DecidableEq, Repr

/-- Model of the rate-limit block: key the map by the lowercased email, read
the last stamp (0 when absent), reject when strictly inside the window with
Retry-After the remaining wait rounded up to whole seconds, otherwise stamp
the current time immediately — before the credential check, whose outcome is
not an input of this block at all. Times are epoch milliseconds. -/
def loginRateCheck (lastLoginAttempt : List (String × Nat)) (email : String)
    (now : Nat) : LoginGate :=
  let emailLower := jsToLowerCase email
  let last : Nat := (jsGet lastLoginAttempt emailLower).getD 0
  let diff : Int := (now : Int) - (last : Int)
  if diff < (LOGIN_LIMIT_MS : Int) then
    .limited (((LOGIN_LIMIT_MS : Int) - diff + 999) / 1000)
  else
    .allowed (mapSet lastLoginAttempt emailLower now)

/-! ### Base64 round-trip lemmas -/

theorem base64Val_base64Char {v : Nat} (h : v < 64) :
    base64Val (base64Char v) = some v := by
  have : ∀ v < 64, base64Val (base64Char v) = some v := by decide
  exact this v h

theorem base64Vals_lt (bs : List Nat) (hb : ∀ b ∈ bs, b < 256) :
    ∀ v ∈ base64Vals bs, v < 64 := by
  induction bs using base64Vals.induct with
  | case1 b0 b1 b2 rest ih =>
    have h0 := hb b0 (by simp)
    have h1 := hb b1 (by simp)
    have h2 := hb b2 (by simp)
    intro v hv
    simp only [base64Vals, List.mem_cons] at hv
    rcases hv with rfl | rfl | rfl | rfl | hv
    · omega
    · omega
    · omega
    · omega
    · exact ih (fun b hbm => hb b (by simp [hbm])) v hv
  | case2 b0 b1 =>
    have h0 := hb b0 (by simp)
    have h1 := hb b1 (by simp)
    intro v hv
    simp only [base64Vals, List.mem_cons] at hv
    rcases hv with rfl | rfl | rfl | hv
    · omega
    · omega
    · omega
    · simp at hv
  | case3 b0 =>
    have h0 := hb b0 (by simp)
    intro v hv
    simp only [base64Vals, List.mem_cons] at hv
    rcases hv with rfl | rfl | hv
    · omega
    · omega
    · simp at hv
  | case4 => intro v hv; simp [base64Vals] at hv

theorem base64Bytes_base64Vals (bs : List Nat) (hb : ∀ b ∈ bs, b < 256) :
    base64Bytes (base64Vals bs) = bs := by
  induction bs using base64Vals.induct with
  | case1 b0 b1 b2 rest ih =>
    have h0 := hb b0 (by simp)
    have h1 := hb b1 (by simp)
    have h2 := hb b2 (by simp)
    have ih2 := ih (fun b hbm => hb b (by simp [hbm]))
    simp only [base64Vals, base64Bytes, ih2, List.cons.injEq, and_true]
    have e1 : b0 % 4 * 16 / 16 = b0 % 4 := Nat.mul_div_cancel _ (by norm_num)
    have e2 : b1 % 16 * 4 / 4 = b1 % 16 := Nat.mul_div_cancel _ (by norm_num)
    refine ⟨?_, ?_, ?_⟩ <;> omega
  | case2 b0 b1 =>
    have h0 := hb b0 (by simp)
    have h1 := hb b1 (by simp)
    simp only [base64Vals, base64Bytes, List.cons.injEq, and_true]
    have e1 : b0 % 4 * 16 / 16 = b0 % 4 := Nat.mul_div_cancel _ (by norm_num)
    have e2 : b1 % 16 * 4 / 4 = b1 % 16 := Nat.mul_div_cancel _ (by norm_num)
    refine ⟨?_, ?_⟩ <;> omega
  | case3 b0 =>
    have h0 := hb b0 (by simp)
    simp only [base64Vals, base64Bytes, List.cons.injEq, and_true]
    have e1 : b0 % 4 * 16 / 16 = b0 % 4 := Nat.mul_div_cancel _ (by norm_num)
    omega
  | case4 => rfl

theorem filterMap_base64Val_pad (len : Nat) :
    (base64Pad len).filterMap base64Val = [] := by
  unfold base64Pad
  split
  · decide
  · split
    · decide
    · decide

theorem base64Decode_base64Encode (bs : List Nat) (hb : ∀ b ∈ bs, b < 256) :
    base64Decode (base64Encode bs) = bs := by
  unfold base64Decode base64Encode
  have hvals : ((base64Vals bs).map base64Char).filterMap base64Val
      = base64Vals bs := by
    rw [List.filterMap_map]
    have : ∀ l : List Nat, (∀ v ∈ l, v < 64) →
        l.filterMap (base64Val ∘ base64Char) = l := by
      intro l hl
      induction l with
      | nil => rfl
      | cons x xs ih =>
        have hx := hl x (by simp)
        simp only [List.filterMap_cons, Function.comp_apply,
          base64Val_base64Char hx, ih (fun v hv => hl v (by simp [hv]))]
    exact this _ (base64Vals_lt bs hb)
  simp only [String.data]
  rw [List.filterMap_append, hvals, filterMap_base64Val_pad, List.append_nil]
  exact base64Bytes_base64Vals bs hb

theorem jsGet_mapSet (m : List (String × Nat)) (k : String) (v : Nat) :
    jsGet (mapSet m k v) k = some v := by
  induction m with
  | nil => simp [mapSet, jsGet]
  | cons p rest ih =>
    obtain ⟨k1, v1⟩ := p
    by_cases h : k1 = k
    · simp [mapSet, h, jsGet]
    · simp [mapSet, h, jsGet, ih]


/-! ### Dot-splitting lemmas -/

theorem splitDotChars_no_dot (a : List Char) (h : '.' ∉ a) :
    splitDotChars a = [a] := by
  induction a with
  | nil => rfl
  | cons c rest ih =>
    have hc : c ≠ '.' := fun hc => h (by simp [hc])
    have hr : '.' ∉ rest := fun hr => h (by simp [hr])
    simp only [splitDotChars]
    rw [ih hr, if_neg hc]

theorem splitDotChars_append_dot (a b : List Char) (h : '.' ∉ a) :
    splitDotChars (a ++ '.' :: b) = a :: splitDotChars b := by
  induction a with
  | nil => simp [splitDotChars]
  | cons c rest ih =>
    have hc : c ≠ '.' := fun hc => h (by simp [hc])
    have hr : '.' ∉ rest := fun hr => h (by simp [hr])
    show splitDotChars (c :: (rest ++ '.' :: b)) = (c :: rest) :: splitDotChars b
    simp only [splitDotChars]
    rw [ih hr, if_neg hc]

theorem jsSplitDot_pair (x y : String) (hx : '.' ∉ x.data)
    (hy : '.' ∉ y.data) : jsSplitDot (x ++ "." ++ y) = [x, y] := by
  unfold jsSplitDot
  rw [String.data_append, String.data_append]
  have hdot : ("." : String).data ++ y.data = '.' :: y.data := rfl
  rw [List.append_assoc, hdot, splitDotChars_append_dot _ _ hx,
    splitDotChars_no_dot _ hy]
  rfl

/-- Shared characterization of verifyApiKey on a well-formed key: look the
row up by id, reject revoked, then the equal-length check followed by the
byte comparison of the stored and recomputed hashes. -/
theorem verifyApiKey_spec (hmacHex : String → String → String)
    (secret : String) (store : List ApiKeyRow) (id token : String)
    (hid : '.' ∉ id.data) (htok : '.' ∉ token.data)
    (hid0 : id ≠ "") (htok0 : token ≠ "") :
    verifyApiKey hmacHex secret store (id ++ "." ++ token) =
      match (store.filter fun r => r.id = id).head? with
      | none => none
      | some row =>
        if row.revoked then none
        else if (hexDecode row.token_hash).length
            ≠ (hexDecode (hmacHex secret token)).length then none
        else if ¬ timingSafeEqual (hexDecode row.token_hash)
            (hexDecode (hmacHex secret token)) then none
        else some row.user_id := by
  unfold verifyApiKey
  rw [jsSplitDot_pair _ _ hid htok]
  have h3 : ¬ (id = "" ∨ token = "") := by
    rintro (h | h)
    · exact hid0 h
    · exact htok0 h
  dsimp only
  rw [if_neg h3]

/-- C1: API key round-trip. For every owner and name, with the issuance
inputs as generated by the source (a nonempty dot-free random hex token and
a nonempty dot-free fresh database row id), verifying the plaintext key
returned by createApiKeyForUser yields the owner user id; after
revokeApiKey by that owner on that key id, verifying the same plaintext
yields null, the revoked-row failure. -/
theorem C1_apiKey_roundtrip
    (hmacHex : String → String → String) (secret : String)
    (store : List ApiKeyRow) (owner nam token newId : String)
    (hid : '.' ∉ newId.data) (htok : '.' ∉ token.data)
    (hid0 : newId ≠ "") (htok0 : token ≠ "")
    (hfresh : ∀ r ∈ store, r.id ≠ newId) :
    verifyApiKey hmacHex secret
        (createApiKeyForUser hmacHex secret store owner nam token newId).1
        (createApiKeyForUser hmacHex secret store owner nam token newId).2.key
      = some owner ∧
    verifyApiKey hmacHex secret
        (revokeApiKey
          (createApiKeyForUser hmacHex secret store owner nam token newId).1
          owner
          (createApiKeyForUser hmacHex secret store owner nam token newId).2.id)
        (createApiKeyForUser hmacHex secret store owner nam token newId).2.key
      = none := by
  have hrow : (createApiKeyForUser hmacHex secret store owner nam token newId).1
      = store ++ [⟨newId, owner, nam, hmacHex secret token, false⟩] := rfl
  have hkey :
      (createApiKeyForUser hmacHex secret store owner nam token newId).2.key
      = newId ++ "." ++ token := rfl
  have hkid :
      (createApiKeyForUser hmacHex secret store owner nam token newId).2.id
      = newId := rfl
  have hfilter :
      ((store ++ [(⟨newId, owner, nam, hmacHex secret token, false⟩ :
          ApiKeyRow)]).filter fun r => r.id = newId)
      = [⟨newId, owner, nam, hmacHex secret token, false⟩] := by
    rw [List.filter_append]
    have h1 : (store.filter fun r => r.id = newId) = [] :=
      List.filter_eq_nil_iff.mpr (fun r hr => by simp [hfresh r hr])
    rw [h1]
    simp
  constructor
  · rw [hrow, hkey, verifyApiKey_spec _ _ _ _ _ hid htok hid0 htok0]
    simp [hfilter, timingSafeEqual]
  · rw [hrow, hkey, hkid, verifyApiKey_spec _ _ _ _ _ hid htok hid0 htok0]
    have hmapid : ∀ r : ApiKeyRow,
        ((if r.id = newId ∧ r.user_id = owner
          then { r with revoked := true } else r) : ApiKeyRow).id = r.id := by
      intro r; split <;> rfl
    have hfilter2 :
        ((revokeApiKey (store ++ [⟨newId, owner, nam, hmacHex secret token,
            false⟩]) owner newId).filter fun r => r.id = newId)
        = [⟨newId, owner, nam, hmacHex secret token, true⟩] := by
      unfold revokeApiKey
      rw [List.map_append, List.filter_append]
      have h1 : (((store.map fun r => if r.id = newId ∧ r.user_id = owner
            then { r with revoked := true } else r)).filter
            fun r => r.id = newId) = [] := by
        apply List.filter_eq_nil_iff.mpr
        intro x hx
        simp only [List.mem_map] at hx
        obtain ⟨r, hr, rfl⟩ := hx
        simp [hmapid r, hfresh r hr]
      rw [h1]
      simp
    simp [hfilter2]

/-- C1 witness at a concrete issuance. -/
theorem C1_apiKey_roundtrip_witness :
    verifyApiKey (fun s t => s ++ t) "sec"
        (createApiKeyForUser (fun s t => s ++ t) "sec" [] "alice" "k" "tok"
          "id1").1
        (createApiKeyForUser (fun s t => s ++ t) "sec" [] "alice" "k" "tok"
          "id1").2.key
      = some "alice" ∧
    verifyApiKey (fun s t => s ++ t) "sec"
        (revokeApiKey
          (createApiKeyForUser (fun s t => s ++ t) "sec" [] "alice" "k" "tok"
            "id1").1
          "alice"
          (createApiKeyForUser (fun s t => s ++ t) "sec" [] "alice" "k" "tok"
            "id1").2.id)
        (createApiKeyForUser (fun s t => s ++ t) "sec" [] "alice" "k" "tok"
          "id1").2.key
      = none :=
  C1_apiKey_roundtrip (fun s t => s ++ t) "sec" [] "alice" "k" "tok" "id1"
    (by decide) (by decide) (by decide) (by decide)
    (by intro r hr; simp at hr)

/-- C8: API key format precondition. A presented key that does not split on
the dot into exactly two nonempty parts verifies to null, with the same
outcome over every store (so no lookup influences it); on a well-formed key
the result is the row lookup by id followed by the revoked check, the
equal-length check on the hex-decoded stored and recomputed hashes, and the
byte-wise comparison, returning the owner id. -/
theorem C8_format_precondition :
    (∀ (hmacHex : String → String → String) (secret : String)
        (store store2 : List ApiKeyRow) (key : String),
      (¬ ∃ i t, jsSplitDot key = [i, t] ∧ i ≠ "" ∧ t ≠ "") →
      verifyApiKey hmacHex secret store key = none ∧
        verifyApiKey hmacHex secret store key
          = verifyApiKey hmacHex secret store2 key) ∧
    (∀ (hmacHex : String → String → String) (secret : String)
        (store : List ApiKeyRow) (id token : String),
      '.' ∉ id.data → '.' ∉ token.data → id ≠ "" → token ≠ "" →
      verifyApiKey hmacHex secret store (id ++ "." ++ token) =
        match (store.filter fun r => r.id = id).head? with
        | none => none
        | some row =>
          if row.revoked then none
          else if (hexDecode row.token_hash).length
              ≠ (hexDecode (hmacHex secret token)).length then none
          else if ¬ timingSafeEqual (hexDecode row.token_hash)
              (hexDecode (hmacHex secret token)) then none
          else some row.user_id) := by
  constructor
  · intro hmacHex secret store store2 key h
    rcases hsp : jsSplitDot key with _ | ⟨i, _ | ⟨t, _ | ⟨u, rest⟩⟩⟩
    · simp [verifyApiKey, hsp]
    · simp [verifyApiKey, hsp]
    · have hit : i = "" ∨ t = "" := by
        by_contra hny
        push_neg at hny
        exact h ⟨i, t, hsp, hny.1, hny.2⟩
      simp [verifyApiKey, hsp, hit]
    · simp [verifyApiKey, hsp]
  · intro hmacHex secret store id token hid htok hid0 htok0
    exact verifyApiKey_spec hmacHex secret store id token hid htok hid0 htok0

/-- C8 witness: a dot-free key is rejected identically over two stores. -/
theorem C8_format_precondition_witness :
    verifyApiKey (fun _ t => t) "s"
        [(⟨"a", "u", "n", "h", false⟩ : ApiKeyRow)] "abc" = none ∧
    verifyApiKey (fun _ t => t) "s"
        [(⟨"a", "u", "n", "h", false⟩ : ApiKeyRow)] "abc"
      = verifyApiKey (fun _ t => t) "s" [] "abc" :=
  C8_format_precondition.1 (fun _ t => t) "s"
    [⟨"a", "u", "n", "h", false⟩] [] "abc"
    (by
      rintro ⟨i, t, hsp, hi, ht⟩
      have he : jsSplitDot "abc" = ["abc"] := by decide
      rw [he] at hsp
      simp at hsp)

/-- Take-one nonemptiness, matching the supabase select with limit 1. -/
theorem take_one_length_pos {α : Type} (l : List α) :
    0 < (l.take 1).length ↔ l ≠ [] := by
  cases l <;> simp

/-- C3 counterexample: the claim says issuing a name whose only existing
holder for that owner is a revoked key succeeds, but the handler rejects it
with 409, because its duplicate select does not filter on revoked. -/
theorem C3_counterexample :
    (([(⟨"k1", "alice", "x", "h", true⟩ : HashedKeyRow)].filter
        fun r => r.user_id = "alice" ∧ r.name = "x").all
        fun r => r.revoked) = true ∧
    postApiKeysHandler (fun r => r) [⟨"k1", "alice", "x", "h", true⟩]
        false false (some "alice") (some "jwt") "x" "raw" "k2"
      = .resp 409 "API key name already exists" := by
  constructor
  · decide
  · rfl

/-- C3 amended: with an authenticated jwt caller and no store failure, the
handler answers 409 DuplicateName exactly when the owner already has a key
of that name, revoked or not; otherwise it inserts and returns the raw key.
In particular a second issue of the same name by the same owner is 409, and
an issue of that name by a different owner with no key of that name
succeeds. -/
theorem C3_duplicateName (sha256Hex : String → String)
    (store : List HashedKeyRow) (uid nam rawKey newId : String) :
    (postApiKeysHandler sha256Hex store false false (some uid) (some "jwt")
        nam rawKey newId = .resp 409 "API key name already exists"
      ↔ ∃ r ∈ store, r.user_id = uid ∧ r.name = nam) ∧
    ((¬ ∃ r ∈ store, r.user_id = uid ∧ r.name = nam) →
      postApiKeysHandler sha256Hex store false false (some uid) (some "jwt")
          nam rawKey newId
        = .created (store ++ [⟨newId, uid, nam, sha256Hex rawKey, false⟩])
            newId nam rawKey) ∧
    (∀ rawKey2 newId2,
      postApiKeysHandler sha256Hex
          (store ++ [⟨newId, uid, nam, sha256Hex rawKey, false⟩])
          false false (some uid) (some "jwt") nam rawKey2 newId2
        = .resp 409 "API key name already exists") ∧
    (∀ uid2, uid2 ≠ uid →
      (¬ ∃ r ∈ store, r.user_id = uid2 ∧ r.name = nam) →
      ∀ rawKey2 newId2,
        postApiKeysHandler sha256Hex
            (store ++ [⟨newId, uid, nam, sha256Hex rawKey, false⟩])
            false false (some uid2) (some "jwt") nam rawKey2 newId2
          = .created ((store ++ [⟨newId, uid, nam, sha256Hex rawKey, false⟩])
                ++ [⟨newId2, uid2, nam, sha256Hex rawKey2, false⟩])
              newId2 nam rawKey2) := by
  have hstep : ∀ (st : List HashedKeyRow) (u rk ni : String),
      postApiKeysHandler sha256Hex st false false (some u) (some "jwt")
          nam rk ni
        = if 0 < ((st.filter fun r => r.user_id = u ∧ r.name = nam).take
              1).length
          then .resp 409 "API key name already exists"
          else .created (st ++ [⟨ni, u, nam, sha256Hex rk, false⟩]) ni nam
            rk := by
    intro st u rk ni
    rfl
  have hmem : ∀ (st : List HashedKeyRow) (u : String),
      (0 < ((st.filter fun r => r.user_id = u ∧ r.name = nam).take 1).length)
        ↔ ∃ r ∈ st, r.user_id = u ∧ r.name = nam := by
    intro st u
    rw [take_one_length_pos]
    constructor
    · intro h
      rcases List.exists_mem_of_ne_nil _ h with ⟨r, hr⟩
      have := List.mem_filter.mp hr
      exact ⟨r, this.1, by simpa using this.2⟩
    · rintro ⟨r, hr, h1, h2⟩
      intro hnil
      have : r ∈ st.filter fun r => r.user_id = u ∧ r.name = nam :=
        List.mem_filter.mpr ⟨hr, by simp [h1, h2]⟩
      rw [hnil] at this
      simp at this
  refine ⟨?_, ?_, ?_, ?_⟩
  · rw [hstep]
    by_cases h : ∃ r ∈ store, r.user_id = uid ∧ r.name = nam
    · simp [(hmem store uid).mpr h, h]
    · rw [if_neg (fun hx => h ((hmem store uid).mp hx))]
      simp [h]
  · intro h
    rw [hstep, if_neg (fun hx => h ((hmem store uid).mp hx))]
  · intro rawKey2 newId2
    rw [hstep, if_pos ((hmem _ uid).mpr ⟨⟨newId, uid, nam, sha256Hex rawKey,
      false⟩, by simp, rfl, rfl⟩)]
  · intro uid2 hne h rawKey2 newId2
    rw [hstep, if_neg]
    intro hx
    rcases (hmem _ uid2).mp hx with ⟨r, hrm, h1, h2⟩
    rcases List.mem_append.mp hrm with hrs | hrn
    · exact h ⟨r, hrs, h1, h2⟩
    · simp at hrn
      rw [hrn] at h1
      exact hne h1.symm

/-- C3 witness: a fresh issue succeeds and the immediate reissue of the same
name by the same owner is 409. -/
theorem C3_duplicateName_witness :
    postApiKeysHandler (fun r => r) [] false false (some "alice")
        (some "jwt") "x" "raw" "k1"
      = .created [⟨"k1", "alice", "x", "raw", false⟩] "k1" "x" "raw" ∧
    postApiKeysHandler (fun r => r) [(⟨"k1", "alice", "x", "raw", false⟩ :
        HashedKeyRow)] false false (some "alice") (some "jwt") "x" "raw2"
        "k2"
      = .resp 409 "API key name already exists" := by
  constructor
  · have h := (C3_duplicateName (fun r => r) [] "alice" "x" "raw" "k1").2.1
      (by rintro ⟨r, hr, _⟩; simp at hr)
    simpa using h
  · have h := (C3_duplicateName (fun r => r) [] "alice" "x" "raw"
      "k1").2.2.1 "raw2" "k2"
    simpa using h

/-- Changing only the password_changed_at column commutes with the user
fetch (the row id is untouched). -/
theorem fetchUserById_setPwd (db : Db) (f : UserRow → Option Nat)
    (uid : String) :
    fetchUserById (setPwdChangedAt db f) uid
      = (fetchUserById db uid).map
          fun u => { u with password_changed_at := f u } := by
  unfold fetchUserById setPwdChangedAt
  cases h : db.usersFail with
  | true => simp
  | false =>
    simp only [h, Bool.false_eq_true, if_false]
    rw [show ((db.users.map fun u => ({ u with password_changed_at := f u} :
        UserRow)).filter fun u => u.id = uid)
      = ((db.users.filter fun u => u.id = uid).map
          fun u => { u with password_changed_at := f u }) from
      List.filter_map _ _]
    cases hf : db.users.filter fun u => u.id = uid with
    | nil => simp
    | cons a t => cases t <;> simp

/-- The api-key branch of authorizer.ts never reads password_changed_at: its
outcome is invariant under any rewrite of that column. -/
theorem authorizerApiKey_pwd_independent (db : Db) (f : UserRow → Option Nat)
    (sha256Hex : String → String) (key : String) :
    authorizerApiKey (setPwdChangedAt db f) sha256Hex key
      = authorizerApiKey db sha256Hex key := by
  have hkeys : fetchKeyByHash (setPwdChangedAt db f) = fetchKeyByHash db :=
    rfl
  have hrole : ∀ rn, rolePartFor (setPwdChangedAt db f) rn
      = rolePartFor db rn := fun _ => rfl
  unfold authorizerApiKey
  simp only [hkeys, hrole, fetchUserById_setPwd]
  by_cases h0 : jsTrim key = ""
  · simp [h0]
  · cases hfk : fetchKeyByHash db (sha256Hex (jsTrim key)) with
    | none => simp [h0, hfk]
    | some keyRow =>
      by_cases hrv : keyRow.revoked
      · simp [h0, hfk, hrv]
      · cases hfu : fetchUserById db keyRow.user_id with
        | none => simp [h0, hfk, hrv, hfu]
        | some u => simp [h0, hfk, hrv, hfu]

/-- C4 counterexample: the claim says a verified token with issued-at
strictly before the credential change is rejected TokenRevoked, but a token
with iat = 0 is falsy in the guard, so the check is skipped and the request
succeeds although 0 is strictly before the change second. -/
theorem C4_counterexample :
    0 < 5000 / 1000 ∧
    authorizerJwt
        ⟨[⟨"u1", "n", "e", "c", some 5000, none⟩], [], [], false, false,
          false⟩
        ⟨some "u1", some 0, none⟩
      = .success "jwt" ⟨"u1", "n", "e", "c", none, none, none, none⟩ := by
  constructor
  · decide
  · rfl

/-- C4 amended: for a stored credential-change time (milliseconds ms, second
ms / 1000) the bearer branch rejects a verified token exactly when its iat
claim is present, nonzero, and strictly below that second; it proceeds when
iat is at or after that second, when iat is absent, when iat is zero (the
falsy-guard gap), or when the user has no credential-change timestamp. The
api-key branch never reads the column at all. -/
theorem C4_revocationPolicy (ms : Nat) (iat : Option Nat)
    (uid nm em ca : String) (h0 : uid ≠ "") :
    (∀ i, iat = some i → i ≠ 0 → i < ms / 1000 →
      authorizerJwt ⟨[⟨uid, nm, em, ca, some ms, none⟩], [], [], false,
          false, false⟩ ⟨some uid, iat, none⟩
        = .resp 401 "Invalid or expired token") ∧
    (∀ i, iat = some i → (i = 0 ∨ ms / 1000 ≤ i) →
      authorizerJwt ⟨[⟨uid, nm, em, ca, some ms, none⟩], [], [], false,
          false, false⟩ ⟨some uid, iat, none⟩
        = .success "jwt" ⟨uid, nm, em, ca, none, none, none, none⟩) ∧
    (iat = none →
      authorizerJwt ⟨[⟨uid, nm, em, ca, some ms, none⟩], [], [], false,
          false, false⟩ ⟨some uid, iat, none⟩
        = .success "jwt" ⟨uid, nm, em, ca, none, none, none, none⟩) ∧
    (authorizerJwt ⟨[⟨uid, nm, em, ca, none, none⟩], [], [], false, false,
          false⟩ ⟨some uid, iat, none⟩
        = .success "jwt" ⟨uid, nm, em, ca, none, none, none, none⟩) ∧
    (∀ (db : Db) (f : UserRow → Option Nat) (sha256Hex : String → String)
        (key : String),
      authorizerApiKey (setPwdChangedAt db f) sha256Hex key
        = authorizerApiKey db sha256Hex key) := by
  have hfetch : ∀ pwd : Option Nat,
      fetchUserById ⟨[⟨uid, nm, em, ca, pwd, none⟩], [], [], false, false,
          false⟩ uid = some ⟨uid, nm, em, ca, pwd, none⟩ := by
    intro pwd
    simp [fetchUserById]
  have hbody : ∀ (pwd : Option Nat) (iat2 : Option Nat),
      authorizerJwt ⟨[⟨uid, nm, em, ca, pwd, none⟩], [], [], false, false,
          false⟩ ⟨some uid, iat2, none⟩
        = match pwd, iat2 with
          | some ms2, some i =>
            if i ≠ 0 ∧ i < ms2 / 1000 then
              AuthResult.resp 401 "Invalid or expired token"
            else .success "jwt" ⟨uid, nm, em, ca, none, none, none, none⟩
          | _, _ =>
            .success "jwt" ⟨uid, nm, em, ca, none, none, none, none⟩ := by
    intro pwd iat2
    unfold authorizerJwt
    dsimp only
    rw [if_neg h0]
    dsimp only
    rw [hfetch pwd]
    dsimp only
    rcases pwd with _ | ms2 <;> rcases iat2 with _ | i <;>
      simp [rolePartFor, truthyStr, decide_eq_true_eq]
  refine ⟨?_, ?_, ?_, ?_, ?_⟩
  · rintro i rfl hnz hlt
    rw [hbody]
    simp [hnz, hlt]
  · rintro i rfl hor
    rw [hbody]
    have : ¬ (i ≠ 0 ∧ i < ms / 1000) := by
      rcases hor with rfl | hge
      · simp
      · intro hx
        omega
    simp [this]
  · rintro rfl
    rw [hbody]
  · rw [hbody]
  · exact authorizerApiKey_pwd_independent

/-- C4 witness at concrete times: iat 1 before change second 5 is rejected,
iat 5 is accepted. -/
theorem C4_revocationPolicy_witness :
    authorizerJwt
        ⟨[⟨"u1", "n", "e", "c", some 5000, none⟩], [], [], false, false,
          false⟩ ⟨some "u1", some 1, none⟩
      = .resp 401 "Invalid or expired token" ∧
    authorizerJwt
        ⟨[⟨"u1", "n", "e", "c", some 5000, none⟩], [], [], false, false,
          false⟩ ⟨some "u1", some 5, none⟩
      = .success "jwt" ⟨"u1", "n", "e", "c", none, none, none, none⟩ :=
  ⟨(C4_revocationPolicy 5000 (some 1) "u1" "n" "e" "c" (by decide)).1 1 rfl
      (by decide) (by decide),
   (C4_revocationPolicy 5000 (some 5) "u1" "n" "e" "c" (by decide)).2.1 5 rfl
      (Or.inr (by decide))⟩

/-- C9: in the bearer path of both authorizer middlewares, a verified token
whose payload carries no userId claim is rejected 401 with the same outcome
over every store state (so before any store access), and no identity is ever
attached for it. -/
theorem C9_missing_userId :
    (∀ (db : Db) (payload : JwtPayload), payload.userId = none →
      authorizerJwt db payload = .resp 401 "Invalid token payload") ∧
    (∀ (db : Db) (payload : JwtPayload), payload.userId = none →
      authorizerWithApiKeyJwt db payload
        = .resp 401 "Invalid authentication") := by
  constructor
  · intro db payload h
    unfold authorizerJwt
    rw [h]
  · intro db payload h
    unfold authorizerWithApiKeyJwt
    rw [h]

/-- C9 witness on a store that does hold a user row. -/
theorem C9_missing_userId_witness :
    authorizerJwt
        ⟨[⟨"u", "n", "e", "c", none, none⟩], [], [], false, false, false⟩
        ⟨none, some 1, none⟩
      = .resp 401 "Invalid token payload" ∧
    authorizerWithApiKeyJwt
        ⟨[⟨"u", "n", "e", "c", none, none⟩], [], [], false, false, false⟩
        ⟨none, some 1, none⟩
      = .resp 401 "Invalid authentication" :=
  ⟨C9_missing_userId.1 _ _ rfl, C9_missing_userId.2 _ _ rfl⟩

/-- C10: a store error on the role fetch during authentication does not fail
the request: both branches log it and attach the identity with a null role
object (hence zero permissions), falling back to the normalized user row
role name. -/
theorem C10_roleError_downgrade (uid nm em ca rname : String)
    (roles : List RoleRow) (hk : List HashedKeyRow) (iat exp : Option Nat)
    (h0 : uid ≠ "") (hr : rname ≠ "") :
    (authorizerJwt ⟨[⟨uid, nm, em, ca, none, some rname⟩], roles, hk, false,
        true, false⟩ ⟨some uid, iat, exp⟩
      = .success "jwt" ⟨uid, nm, em, ca, none,
          normalizeRoleName (some rname), none, none⟩) ∧
    (∀ (sha256Hex : String → String) (key kid knam : String)
        (pwd : Option Nat),
      jsTrim key ≠ "" →
      authorizerApiKey
          ⟨[⟨uid, nm, em, ca, pwd, some rname⟩], roles,
            [⟨kid, uid, knam, sha256Hex (jsTrim key), false⟩], false, true,
            false⟩ sha256Hex key
        = .success "api_key" ⟨uid, nm, em, ca, none,
            normalizeRoleName (some rname), some knam, some kid⟩) := by
  have hrole : ∀ (roles2 : List RoleRow) (hk2 : List HashedKeyRow)
      (users2 : List UserRow) (kf : Bool),
      rolePartFor ⟨users2, roles2, hk2, false, true, kf⟩ (some rname)
        = (none, normalizeRoleName (some rname)) := by
    intro roles2 hk2 users2 kf
    unfold rolePartFor loadRoleObj
    simp [hr, truthyStr]
  constructor
  · unfold authorizerJwt
    dsimp only
    rw [if_neg h0]
    dsimp only
    have hfetch : fetchUserById ⟨[⟨uid, nm, em, ca, none, some rname⟩],
        roles, hk, false, true, false⟩ uid
        = some ⟨uid, nm, em, ca, none, some rname⟩ := by
      simp [fetchUserById]
    rw [hfetch]
    dsimp only
    rcases iat with _ | i <;> rw [hrole] <;> rfl
  · intro sha256Hex key kid knam pwd hk0
    unfold authorizerApiKey
    rw [if_neg hk0]
    dsimp only
    have hfk : fetchKeyByHash ⟨[⟨uid, nm, em, ca, pwd, some rname⟩], roles,
        [⟨kid, uid, knam, sha256Hex (jsTrim key), false⟩], false, true,
        false⟩ (sha256Hex (jsTrim key))
        = some ⟨kid, uid, knam, sha256Hex (jsTrim key), false⟩ := by
      simp [fetchKeyByHash]
    rw [hfk]
    dsimp only
    have hfetch : fetchUserById ⟨[⟨uid, nm, em, ca, pwd, some rname⟩],
        roles, [⟨kid, uid, knam, sha256Hex (jsTrim key), false⟩], false,
        true, false⟩ uid
        = some ⟨uid, nm, em, ca, pwd, some rname⟩ := by
      simp [fetchUserById]
    rw [hfetch]
    dsimp only
    rw [hrole]
    rfl

/-- C10 witness: role fetch fails, yet both branches attach an identity with
a null role. -/
theorem C10_roleError_downgrade_witness :
    authorizerJwt
        ⟨[⟨"u1", "n", "e", "c", none, some "ADMIN"⟩], [], [], false, true,
          false⟩ ⟨some "u1", some 7, none⟩
      = .success "jwt" ⟨"u1", "n", "e", "c", none,
          normalizeRoleName (some "ADMIN"), none, none⟩ ∧
    authorizerApiKey
        ⟨[⟨"u1", "n", "e", "c", none, some "ADMIN"⟩], [],
          [⟨"k1", "u1", "key", "rawhash", false⟩], false, true, false⟩
        (fun _ => "rawhash") "raw"
      = .success "api_key" ⟨"u1", "n", "e", "c", none,
          normalizeRoleName (some "ADMIN"), some "key", some "k1"⟩ :=
  ⟨(C10_roleError_downgrade "u1" "n" "e" "c" "ADMIN" [] [] (some 7) none
      (by decide) (by decide)).1,
   (C10_roleError_downgrade "u1" "n" "e" "c" "ADMIN" []
      [⟨"k1", "u1", "key", "rawhash", false⟩] (some 7) none (by decide)
      (by decide)).2 (fun _ => "rawhash") "raw" "k1" "key" none (by decide)⟩

/-- C5: the permission gate fails 401 with no identity, fails 403 on a null
role or a falsy named permission (absent key or false value), and passes
exactly when the permission is true; the embedding is a pure function of the
identity and permission name, with no store or request state among its
inputs. -/
theorem C5_permissionGate :
    (∀ p, requirePermission p none = .resp 401 "Unauthorized") ∧
    (∀ p (u : AttachedUser), u.role = none →
      requirePermission p (some u) = .resp 403 "Forbidden: no role assigned") ∧
    (∀ p (u : AttachedUser) (role : List (String × Bool)),
      u.role = some role → jsGet role p = some true →
      requirePermission p (some u) = .allow) ∧
    (∀ p (u : AttachedUser) (role : List (String × Bool)),
      u.role = some role → jsGet role p ≠ some true →
      requirePermission p (some u)
        = .resp 403 "Forbidden: insufficient permissions") := by
  refine ⟨fun p => rfl, ?_, ?_, ?_⟩
  · intro p u h
    simp [requirePermission, h]
  · intro p u role h hget
    simp [requirePermission, h, hget]
  · intro p u role h hget
    cases hg : jsGet role p with
    | none => simp [requirePermission, h, hg]
    | some b =>
      cases b with
      | false => simp [requirePermission, h, hg]
      | true => exact absurd hg hget

/-- C5 witness: denial on null role, on false and absent entries, and
allowance on a true entry. -/
theorem C5_permissionGate_witness :
    requirePermission "can_post_products" none = .resp 401 "Unauthorized" ∧
    requirePermission "can_post_products"
        (some ⟨"u", "n", "e", "c", none, none, none, none⟩)
      = .resp 403 "Forbidden: no role assigned" ∧
    requirePermission "can_post_products"
        (some ⟨"u", "n", "e", "c",
          some [("can_post_products", true)], none, none, none⟩)
      = .allow ∧
    requirePermission "can_post_products"
        (some ⟨"u", "n", "e", "c",
          some [("can_post_products", false)], none, none, none⟩)
      = .resp 403 "Forbidden: insufficient permissions" ∧
    requirePermission "can_post_product_images"
        (some ⟨"u", "n", "e", "c",
          some [("can_post_products", true)], none, none, none⟩)
      = .resp 403 "Forbidden: insufficient permissions" :=
  ⟨C5_permissionGate.1 "can_post_products",
   C5_permissionGate.2.1 "can_post_products"
     ⟨"u", "n", "e", "c", none, none, none, none⟩ rfl,
   C5_permissionGate.2.2.1 "can_post_products"
     ⟨"u", "n", "e", "c", some [("can_post_products", true)], none, none,
       none⟩ _ rfl (by decide),
   C5_permissionGate.2.2.2 "can_post_products"
     ⟨"u", "n", "e", "c", some [("can_post_products", false)], none, none,
       none⟩ _ rfl (by decide),
   C5_permissionGate.2.2.2 "can_post_product_images"
     ⟨"u", "n", "e", "c", some [("can_post_products", true)], none, none,
       none⟩ _ rfl (by decide)⟩

/-- C7: the login rate limiter keys on the lowercased email; an admitted
attempt stamps the current time into the map at once — the limiter block
runs before the credential check and never sees its outcome, so failed and
successful attempts are throttled identically; an attempt strictly less
than 5000 ms after the admitted one is rejected with the remaining wait
rounded up to whole seconds; an attempt 6000 ms after is admitted; two
emails with the same lowercasing share one key. -/
theorem C7_loginRateLimiter :
    (∀ (m : List (String × Nat)) (email : String) (t : Nat)
        (m2 : List (String × Nat)),
      loginRateCheck m email t = .allowed m2 →
      jsGet m2 (jsToLowerCase email) = some t ∧
      (∀ d : Nat, d < 5000 →
        loginRateCheck m2 email (t + d)
          = .limited ((5000 - (d : Int) + 999) / 1000)) ∧
      (∃ m3, loginRateCheck m2 email (t + 6000) = .allowed m3)) ∧
    (∀ m e1 e2 t, jsToLowerCase e1 = jsToLowerCase e2 →
      loginRateCheck m e1 t = loginRateCheck m e2 t) := by
  constructor
  · intro m email t m2 h
    have hm2 : m2 = mapSet m (jsToLowerCase email) t := by
      unfold loginRateCheck at h
      dsimp only at h
      split at h
      · exact absurd h (by simp)
      · exact (by injection h with h2; exact h2.symm)
    subst hm2
    refine ⟨jsGet_mapSet m (jsToLowerCase email) t, ?_, ?_⟩
    · intro d hd
      unfold loginRateCheck
      dsimp only
      rw [jsGet_mapSet]
      have hdiff : ((t + d : Nat) : Int) - ((t : Nat) : Int) = (d : Int) := by
        push_cast
        ring
      dsimp only [Option.getD]
      rw [hdiff]
      rw [if_pos (by exact_mod_cast hd)]
      norm_num [LOGIN_LIMIT_MS]
    · refine ⟨mapSet (mapSet m (jsToLowerCase email) t) (jsToLowerCase email)
        (t + 6000), ?_⟩
      unfold loginRateCheck
      dsimp only
      rw [jsGet_mapSet]
      have hdiff : ((t + 6000 : Nat) : Int) - ((t : Nat) : Int)
          = (6000 : Int) := by
        push_cast
        ring
      dsimp only [Option.getD]
      rw [hdiff]
      rw [if_neg (by norm_num [LOGIN_LIMIT_MS])]
  · intro m e1 e2 t h
    unfold loginRateCheck
    rw [h]

/-- C7 witness: an admitted attempt at 10000 stamps the lowercased key; 1000
ms later the same email is limited with a 4 second Retry-After; 6000 ms
later it is admitted. -/
theorem C7_loginRateLimiter_witness :
    jsGet (mapSet [] (jsToLowerCase "A@B.c") 10000) (jsToLowerCase "A@B.c")
      = some 10000 ∧
    loginRateCheck (mapSet [] (jsToLowerCase "A@B.c") 10000) "A@B.c" 11000
      = .limited ((5000 - (1000 : Int) + 999) / 1000) ∧
    (∃ m3, loginRateCheck (mapSet [] (jsToLowerCase "A@B.c") 10000) "A@B.c"
      16000 = .allowed m3) := by
  have h := C7_loginRateLimiter.1 [] "A@B.c" 10000
    (mapSet [] (jsToLowerCase "A@B.c") 10000) (by decide)
  exact ⟨h.1, h.2.1 1000 (by decide), h.2.2⟩

/-- Characterization of the modelled jwt.verify: it returns ok exactly for
the token payload, when the signature equals the keyed MAC under the
declared algorithm, the declared algorithm is in the HMAC family, and the
token is unexpired. -/
theorem verifyJwt_ok_iff (mac : String → String → JwtPayload → List Nat)
    (secret : String) (now : Nat) (t : JwtToken) (p : JwtPayload) :
    verifyJwt mac secret now t = .ok p ↔
      p = t.payload ∧ t.signature = some (mac t.alg secret t.payload) ∧
      jwtDefaultHsAlgos.contains t.alg = true ∧
      (∀ e, t.payload.exp = some e → now < e) := by
  rcases hsig : t.signature with _ | sig
  · simp [verifyJwt, hsig]
  · rcases hc : jwtDefaultHsAlgos.contains t.alg with _ | _
    · have hmem : t.alg ∉ jwtDefaultHsAlgos := by simpa using hc
      simp [verifyJwt, hsig, hc, hmem]
    · have hmem : t.alg ∈ jwtDefaultHsAlgos := by simpa using hc
      by_cases hs : sig = mac t.alg secret t.payload
      · subst hs
        rcases hexp : t.payload.exp with _ | e
        · simp [verifyJwt, hsig, hc, hmem, hexp, eq_comm]
        · by_cases hle : e ≤ now
          · simp [verifyJwt, hsig, hc, hmem, hexp, hle, eq_comm]
          · simp [verifyJwt, hsig, hc, hmem, hexp, hle, eq_comm]
            intro _
            omega
      · simp [verifyJwt, hsig, hc, hmem, hs]

/-- C2 counterexample: a token declaring HS384, correctly MAC-tagged under
the shared secret, verifies successfully although the secret was provisioned
for HS256, because verifyJwt passes no algorithms option and the library
default for a shared secret admits every HMAC algorithm. -/
theorem C2_counterexample :
    ("HS384" : String) ≠ "HS256" ∧ ("HS384" : String) ≠ "none" ∧
    verifyJwt (fun _ _ _ => [1]) "s" 0
        ⟨"HS384", ⟨some "u", some 1, none⟩, some [1]⟩
      = .ok ⟨some "u", some 1, none⟩ := by
  refine ⟨by decide, by decide, ?_⟩
  rfl

/-- C2 amended: verification rejects the "none" algorithm (and any
algorithm outside the HMAC family) for every token, but accepts all of
HS256, HS384 and HS512 under the shared secret: acceptance is exactly a
present signature equal to the keyed MAC under the declared in-family
algorithm on an unexpired token; the signer itself always provisions
HS256. -/
theorem C2_algorithmAcceptance
    (mac : String → String → JwtPayload → List Nat) (secret : String)
    (now : Nat) (t : JwtToken) :
    (t.alg = "none" → ∀ p, verifyJwt mac secret now t ≠ .ok p) ∧
    (t.alg ∉ jwtDefaultHsAlgos → ∀ p, verifyJwt mac secret now t ≠ .ok p) ∧
    (∀ p, verifyJwt mac secret now t = .ok p → p = t.payload) ∧
    (verifyJwt mac secret now t = .ok t.payload ↔
      t.signature = some (mac t.alg secret t.payload) ∧
      t.alg ∈ jwtDefaultHsAlgos ∧
      (∀ e, t.payload.exp = some e → now < e)) ∧
    (∀ payload : JwtPayload, payload.exp = none →
      verifyJwt mac secret now (signJwt mac secret payload) = .ok payload) := by
  refine ⟨?_, ?_, ?_, ?_, ?_⟩
  · intro halg p hok
    have h := (verifyJwt_ok_iff mac secret now t p).mp hok
    rw [halg] at h
    exact absurd h.2.2.1 (by decide)
  · intro hnot p hok
    have h := (verifyJwt_ok_iff mac secret now t p).mp hok
    exact hnot (by simpa using h.2.2.1)
  · intro p hok
    exact ((verifyJwt_ok_iff mac secret now t p).mp hok).1
  · rw [verifyJwt_ok_iff]
    constructor
    · rintro ⟨_, hsig, hcc, hexp⟩
      exact ⟨hsig, by simpa using hcc, hexp⟩
    · rintro ⟨hsig, hmem, hexp⟩
      exact ⟨rfl, hsig, by simpa using hmem, hexp⟩
  · intro payload hexp
    rw [verifyJwt_ok_iff]
    refine ⟨rfl, rfl, by rfl, ?_⟩
    intro e he
    rw [show (signJwt mac secret payload).payload = payload from rfl] at he
    rw [hexp] at he
    cases he

/-- C2 witness: the "none" algorithm is rejected with or without signature
bytes, and a signed HS256 token round-trips. -/
theorem C2_algorithmAcceptance_witness :
    (∀ p, verifyJwt (fun _ _ _ => [2]) "s" 0
        ⟨"none", ⟨some "u", none, none⟩, some [2]⟩ ≠ .ok p) ∧
    (∀ p, verifyJwt (fun _ _ _ => [2]) "s" 0
        ⟨"none", ⟨some "u", none, none⟩, none⟩ ≠ .ok p) ∧
    verifyJwt (fun _ _ _ => [2]) "s" 0
        (signJwt (fun _ _ _ => [2]) "s" ⟨some "u", none, none⟩)
      = .ok ⟨some "u", none, none⟩ :=
  ⟨(C2_algorithmAcceptance (fun _ _ _ => [2]) "s" 0
      ⟨"none", ⟨some "u", none, none⟩, some [2]⟩).1 rfl,
   (C2_algorithmAcceptance (fun _ _ _ => [2]) "s" 0
      ⟨"none", ⟨some "u", none, none⟩, none⟩).1 rfl,
   (C2_algorithmAcceptance (fun _ _ _ => [2]) "s" 0
      (signJwt (fun _ _ _ => [2]) "s" ⟨some "u", none, none⟩)).2.2.2.2
     ⟨some "u", none, none⟩ rfl⟩

theorem base64Vals_ne_nil (bs : List Nat) (h : bs ≠ []) :
    base64Vals bs ≠ [] := by
  rcases bs with _ | ⟨b0, _ | ⟨b1, _ | ⟨b2, rest⟩⟩⟩
  · exact absurd rfl h
  · simp [base64Vals]
  · simp [base64Vals]
  · simp [base64Vals]

theorem base64Encode_ne_empty (bs : List Nat) (h : bs ≠ []) :
    base64Encode bs ≠ "" := by
  unfold base64Encode
  intro heq
  have hdata : (base64Vals bs).map base64Char ++ base64Pad bs.length = [] :=
    congrArg String.data heq
  rcases List.append_eq_nil.mp hdata with ⟨h1, _⟩
  exact base64Vals_ne_nil bs h (List.map_eq_nil_iff.mp h1)

/-- C6 amended: webhook signature verification over the exact raw body
bytes. A missing or empty header is 401 Missing signature; the canonical
base64 signature of the body MAC verifies; for a nonempty header,
acceptance holds exactly when the header base64-decodes to the MAC bytes —
so a changed body fails whenever its MAC differs, a changed header fails
whenever its decoded bytes differ, and unequal decoded lengths are the same
mismatch response rather than an error; but headers are compared by decoded
bytes, not as strings (see the counterexample). JSON parsing happens only
after sigOk, on the same raw bytes the MAC consumed. -/
theorem C6_webhookVerifier (hmacSha256 : String → List Nat → List Nat)
    (sec : String) (body : List Nat)
    (hb : ∀ x ∈ hmacSha256 sec body, x < 256)
    (hne : hmacSha256 sec body ≠ []) :
    (shopifyWebhookVerify hmacSha256 (some sec) (some body)
        (some (base64Encode (hmacSha256 sec body))) = .sigOk) ∧
    (shopifyWebhookVerify hmacSha256 (some sec) (some body) none
        = .resp 401 "Missing signature") ∧
    (shopifyWebhookVerify hmacSha256 (some sec) (some body) (some "")
        = .resp 401 "Missing signature") ∧
    (∀ header, header ≠ "" →
      (shopifyWebhookVerify hmacSha256 (some sec) (some body) (some header)
          = .sigOk ↔ base64Decode header = hmacSha256 sec body)) ∧
    (∀ header, header ≠ "" →
      (base64Decode header).length ≠ (hmacSha256 sec body).length →
      shopifyWebhookVerify hmacSha256 (some sec) (some body) (some header)
        = .resp 401 "Invalid signature") ∧
    (∀ body2, (∀ x ∈ hmacSha256 sec body2, x < 256) →
      hmacSha256 sec body2 ≠ hmacSha256 sec body →
      shopifyWebhookVerify hmacSha256 (some sec) (some body2)
          (some (base64Encode (hmacSha256 sec body)))
        = .resp 401 "Invalid signature") := by
  have hiff : ∀ (body2 : List Nat) (header : String), header ≠ "" →
      (∀ x ∈ hmacSha256 sec body2, x < 256) →
      (shopifyWebhookVerify hmacSha256 (some sec) (some body2) (some header)
          = .sigOk ↔ base64Decode header = hmacSha256 sec body2) := by
    intro body2 header hh hb2
    unfold shopifyWebhookVerify
    dsimp only [Option.getD]
    rw [if_neg hh, base64Decode_base64Encode _ hb2]
    by_cases hcond : base64Decode header = hmacSha256 sec body2
    · rw [if_neg]
      · simp [hcond]
      · simp [hcond, timingSafeEqual]
    · rw [if_pos]
      · simp [hcond]
      · by_cases hl : (hmacSha256 sec body2).length
            = (base64Decode header).length
        · right
          simp only [timingSafeEqual, Bool.not_eq_true, beq_eq_false_iff_ne,
            ne_eq]
          intro heq
          exact hcond (heq.symm)
        · left
          exact hl
  refine ⟨?_, rfl, rfl, ?_, ?_, ?_⟩
  · exact (hiff body (base64Encode (hmacSha256 sec body))
      (base64Encode_ne_empty _ hne) hb).mpr
      (base64Decode_base64Encode _ hb)
  · intro header hh
    exact hiff body header hh hb
  · intro header hh hlen
    unfold shopifyWebhookVerify
    dsimp only [Option.getD]
    rw [if_neg hh, base64Decode_base64Encode _ hb]
    rw [if_pos (Or.inl (fun hx => hlen (hx.symm)))]
  · intro body2 hb2 hm
    have h := hiff body2 (base64Encode (hmacSha256 sec body))
      (base64Encode_ne_empty _ hne) hb2
    rw [base64Decode_base64Encode _ hb] at h
    have hnot : ¬ (shopifyWebhookVerify hmacSha256 (some sec) (some body2)
        (some (base64Encode (hmacSha256 sec body))) = .sigOk) :=
      fun hx => hm (h.mp hx).symm
    revert hnot
    unfold shopifyWebhookVerify
    dsimp only [Option.getD]
    rw [if_neg (base64Encode_ne_empty _ hne)]
    split
    · intro _
      rfl
    · intro hcon
      exact absurd rfl hcon

/-- C6 counterexample: the claim says changing any single byte of the
signature fails SignatureMismatch, but the header is compared by its base64
decoding, which discards trailing bits: for a 32-byte MAC, changing the
final data character of the canonical signature from A to B leaves the
decoded bytes unchanged, and the altered signature still verifies. -/
theorem C6_counterexample :
    base64Encode (List.replicate 32 0)
      = "AAAAAAAAAAAAAAAAAAAAAAAAAAAAAAAAAAAAAAAAAAA=" ∧
    ("AAAAAAAAAAAAAAAAAAAAAAAAAAAAAAAAAAAAAAAAAAB=" : String).length
      = ("AAAAAAAAAAAAAAAAAAAAAAAAAAAAAAAAAAAAAAAAAAA=" : String).length ∧
    ("AAAAAAAAAAAAAAAAAAAAAAAAAAAAAAAAAAAAAAAAAAB=" : String)
      ≠ "AAAAAAAAAAAAAAAAAAAAAAAAAAAAAAAAAAAAAAAAAAA=" ∧
    ((("AAAAAAAAAAAAAAAAAAAAAAAAAAAAAAAAAAAAAAAAAAA=" : String).data.zip
        ("AAAAAAAAAAAAAAAAAAAAAAAAAAAAAAAAAAAAAAAAAAB=" : String).data).countP
        fun p => p.1 ≠ p.2) = 1 ∧
    shopifyWebhookVerify (fun _ _ => List.replicate 32 0) (some "k")
        (some []) (some "AAAAAAAAAAAAAAAAAAAAAAAAAAAAAAAAAAAAAAAAAAB=")
      = .sigOk := by
  refine ⟨by decide, by decide, by decide, by decide, by decide⟩

/-- C6 witness: canonical signature verifies, missing header is 401, and a
body whose MAC differs is rejected as a signature mismatch. -/
theorem C6_webhookVerifier_witness :
    shopifyWebhookVerify (fun _ b => if b = [] then [1] else [2]) (some "k")
        (some []) (some (base64Encode [1])) = .sigOk ∧
    shopifyWebhookVerify (fun _ b => if b = [] then [1] else [2]) (some "k")
        (some []) none = .resp 401 "Missing signature" ∧
    shopifyWebhookVerify (fun _ b => if b = [] then [1] else [2]) (some "k")
        (some [0]) (some (base64Encode [1])) = .resp 401 "Invalid signature"
    := by
  have h := C6_webhookVerifier (fun _ b => if b = [] then [1] else [2]) "k"
    [] (by decide) (by decide)
  exact ⟨h.1, h.2.1, h.2.2.2.2.2 [0] (by decide) (by decide)⟩
